import Mathlib

/-!
Verification of the provably-fair Mines game engine (server/minesGame module).

The embedding translates the TypeScript source into Lean:
* JavaScript numbers that hold integer values become `ℕ`/`ℤ`; monetary values
  and the multiplier arithmetic become `ℚ` (the source's arithmetic on the
  relevant ranges is exact, so `ℚ` is a faithful idealisation).
* `Number.prototype.toFixed(d)` followed by `parseFloat` is modelled by
  `jsToFixed d` (round half towards the larger value, as ECMA-262 specifies).
* The HMAC digest, the random server seed, the seed hash and the generated
  game id are external effects; they enter the functions as explicit
  parameters (`hmacDigest`, `serverSeed`, `hashSeed`, `newGameId`).
* Database rows become fields of `DBState`; a `db.transaction` (or a throw
  before any write) becomes a function returning `Except String`, where an
  `Except.error` outcome carries no state, i.e. nothing was mutated.
-/

namespace HedgeFund

/-! ### Provably fair layout generation (`generateMineLocations`) -/

/-- Swap index of the Fisher–Yates loop: the source computes
`Math.floor(byte / 256 * (i + 1))`, which for a byte `b < 256` and counter `i`
is exactly `b * (i + 1) / 256` in natural-number division. -/
def jIndex (b i : ℕ) : ℕ :=
  b * (i + 1) / 256

/-- Swap of two positions of a list, as the destructuring assignment
`[numbers[i], numbers[j]] = [numbers[j], numbers[i]]` does: both reads happen
before either write. -/
def listSwap (l : List ℕ) (i j : ℕ) : List ℕ :=
  (l.set i (l.getD j 0)).set j (l.getD i 0)

/-- The Fisher–Yates loop `for (let i = len - 1; i > 0; i--)` of
`generateMineLocations`; the counter is the second argument and counts down
to `0` (the body runs only while the counter is positive). -/
def fyLoop (buffer : List ℕ) : List ℕ → ℕ → List ℕ
  | arr, 0 => arr
  | arr, i + 1 =>
    let b := buffer.getD ((i + 1) % buffer.length) 0
    fyLoop buffer (listSwap arr (i + 1) (jIndex b (i + 1))) i

/-- `generateMineLocations(serverSeed, clientSeed, nonce, grid_size, mine_count)`.
The HMAC-SHA512 digest is modelled by the explicit function `hmacDigest`
(key, message ↦ byte buffer); the message is `` `${clientSeed}:${nonce}` ``.
The shuffled index array is truncated to `mine_count` entries and sorted
ascending (`.sort((a, b) => a - b)`). -/
def generateMineLocations (hmacDigest : String → String → List ℕ)
    (serverSeed clientSeed : String) (nonce gridSize mineCount : ℕ) : List ℕ :=
  let buffer := hmacDigest serverSeed (clientSeed ++ ":" ++ toString nonce)
  let numbers := List.range gridSize
  let shuffled := fyLoop buffer numbers (numbers.length - 1)
  (shuffled.take mineCount).mergeSort (fun a b => a ≤ b)

/-! ### Payout multiplier (`combinations`, `calculateMinesMultiplier`) -/

/-- The loop `for (let i = 1; i <= k; i++) res = res * (n - i + 1) / i` of
`combinations`, after `k` iterations.  On the ranges the game uses every
intermediate value is an exactly representable integer, so `ℚ` matches the
source's float arithmetic. -/
def combLoop (n : ℤ) : ℕ → ℚ
  | 0 => 1
  | i + 1 => combLoop n i * ((n : ℚ) - (i + 1) + 1) / (i + 1)

/-- `combinations(n, k)`: `0` for `k < 0` or `k > n`, `1` for `k = 0` or
`k = n`, otherwise the iterative product, using the symmetry reduction
`if (k > n / 2) k = n - k` (for integers `k > n / 2` iff `n < 2 * k`). -/
def combinations (n k : ℤ) : ℚ :=
  if k < 0 ∨ n < k then 0
  else if k = 0 ∨ k = n then 1
  else if n < 2 * k then combLoop n (n - k).toNat
  else combLoop n k.toNat

/-- `calculateMinesMultiplier(revealedCount, mineCount)` with the fixed
`gridSize = 25` and the 1% house edge factor `0.99`. -/
def calculateMinesMultiplier (revealedCount mineCount : ℤ) : ℚ :=
  let gridSize : ℤ := 25
  0.99 * combinations gridSize revealedCount /
    combinations (gridSize - mineCount) revealedCount

/-! ### Game state machine (`createMinesGame`, `revealMinesTile`,
`cashoutMinesGame`) -/

/-- `x.toFixed(digits)` (ECMA-262: nearest multiple of `10 ^ (-digits)`,
ties towards the larger value) read back as a number. -/
def jsToFixed (digits : ℕ) (x : ℚ) : ℚ :=
  (⌊x * 10 ^ digits + 1 / 2⌋ : ℚ) / 10 ^ digits

/-- Game status column: `active`, `busted` or `cashed_out`. -/
inductive GameStatus where
  | active
  | busted
  | cashed_out
deriving DecidableEq, Repr

/-- A row of the `mines_games` table (fields the engine reads or writes). -/
structure MinesGame where
  id : String
  userId : String
  betAmount : ℚ
  mineCount : ℕ
  clientSeed : String
  serverSeed : String
  serverSeedHash : String
  nonce : ℕ
  mineLocations : List ℕ
  revealedTiles : List ℕ
  status : GameStatus
  payoutMultiplier : ℚ
  cashedOutAmount : Option ℚ
deriving DecidableEq, Repr

/-- A row of the `transactions` ledger table as written by the engine. -/
structure Tx where
  userId : String
  type : String
  amount : ℚ
  status : String
deriving DecidableEq, Repr

/-- The database state the engine touches: user balances (`users` rows as
`(id, depositBalance)`), the `mines_games` rows and the transaction log. -/
structure DBState where
  users : List (String × ℚ)
  games : List MinesGame
  transactions : List Tx
deriving DecidableEq, Repr

/-- `SELECT ... FROM users WHERE id = userId`, projected to the balance. -/
def findUser (users : List (String × ℚ)) (userId : String) : Option ℚ :=
  (users.find? (fun u => u.1 == userId)).map (fun u => u.2)

/-- `UPDATE users SET deposit_balance = bal WHERE id = userId`. -/
def updateUserBalance (users : List (String × ℚ)) (userId : String) (bal : ℚ) :
    List (String × ℚ) :=
  users.map (fun u => if u.1 == userId then (u.1, bal) else u)

/-- `SELECT ... FROM mines_games WHERE id = gameId`. -/
def findGame (games : List MinesGame) (gameId : String) : Option MinesGame :=
  games.find? (fun g => g.id == gameId)

/-- `UPDATE mines_games SET ... WHERE id = gameId` with the patched row. -/
def updateGame (games : List MinesGame) (gameId : String) (g' : MinesGame) :
    List MinesGame :=
  games.map (fun g => if g.id == gameId then g' else g)

/-- The request payload of a bet. -/
structure MinesBetPayload where
  betAmount : ℚ
  mineCount : ℕ
  clientSeed : String

/-- `createMinesGame(userId, payload)`.  `serverSeed` (from
`generateServerSeed`), the hash function `hashSeed` (for `hashServerSeed`),
the digest function and the generated row id are passed in explicitly.  The
whole balance check / debit / ledger insert / game insert runs inside one
`db.transaction`, so an error leaves no mutation.  (The source strips
`serverSeed` and `mineLocations` from the value returned to the client; the
stored row is what matters here.) -/
def createMinesGame (hmacDigest : String → String → List ℕ)
    (hashSeed : String → String) (serverSeed newGameId : String)
    (st : DBState) (userId : String) (payload : MinesBetPayload) :
    Except String (DBState × MinesGame) :=
  if payload.betAmount ≤ 0 then
    Except.error "Invalid bet amount."
  else if payload.mineCount < 1 ∨ 24 < payload.mineCount then
    Except.error "Mine count must be between 1 and 24."
  else
    match findUser st.users userId with
    | none => Except.error "User not found."
    | some currentBalance =>
      if currentBalance < payload.betAmount then
        Except.error "Insufficient balance."
      else
        let newBalance := jsToFixed 2 (currentBalance - payload.betAmount)
        let betTx : Tx :=
          { userId := userId, type := "game_bet",
            amount := -(jsToFixed 2 payload.betAmount), status := "completed" }
        let mineLocations :=
          generateMineLocations hmacDigest serverSeed payload.clientSeed 1 25
            payload.mineCount
        let newGame : MinesGame :=
          { id := newGameId, userId := userId,
            betAmount := payload.betAmount, mineCount := payload.mineCount,
            clientSeed := payload.clientSeed, serverSeed := serverSeed,
            serverSeedHash := hashSeed serverSeed, nonce := 1,
            mineLocations := mineLocations, revealedTiles := [],
            status := GameStatus.active, payoutMultiplier := 1,
            cashedOutAmount := none }
        Except.ok
          ({ users := updateUserBalance st.users userId newBalance,
             games := st.games ++ [newGame],
             transactions := st.transactions ++ [betTx] }, newGame)

/-- `revealMinesTile(userId, gameId, tileIndex)`.  Checks, in source order:
game found and owned, game active, tile not already revealed; then either
busts on a mine or appends the tile and recomputes the multiplier (stored
via `toFixed(4)`).  There is no range check on `tileIndex`. -/
def revealMinesTile (st : DBState) (userId gameId : String) (tileIndex : ℕ) :
    Except String (DBState × MinesGame) :=
  match findGame st.games gameId with
  | none => Except.error "Game not found or access denied."
  | some game =>
    if game.userId ≠ userId then
      Except.error "Game not found or access denied."
    else if game.status ≠ GameStatus.active then
      Except.error "Game is not active."
    else if tileIndex ∈ game.revealedTiles then
      Except.error "Tile already revealed."
    else if tileIndex ∈ game.mineLocations then
      let bustedGame := { game with status := GameStatus.busted }
      Except.ok ({ st with games := updateGame st.games gameId bustedGame },
        bustedGame)
    else
      let newRevealedTiles := game.revealedTiles ++ [tileIndex]
      let newMultiplier :=
        calculateMinesMultiplier newRevealedTiles.length game.mineCount
      let updatedGame :=
        { game with revealedTiles := newRevealedTiles,
                    payoutMultiplier := jsToFixed 4 newMultiplier }
      Except.ok ({ st with games := updateGame st.games gameId updatedGame },
        updatedGame)

/-- `cashoutMinesGame(userId, gameId)`.  Checks, in source order: game found
and owned, game active, at least one revealed tile; then inside one
`db.transaction` computes `winnings = betAmount * payoutMultiplier`, credits
the balance, appends a `game_win` ledger row (amount `winnings.toFixed(2)`)
and marks the game `cashed_out` with `cashedOutAmount = winnings.toFixed(2)`.
(A missing user row would make the source throw a `TypeError`, aborting the
transaction; that is the `error` branch on `findUser`.) -/
def cashoutMinesGame (st : DBState) (userId gameId : String) :
    Except String (DBState × MinesGame) :=
  match findGame st.games gameId with
  | none => Except.error "Game not found or access denied."
  | some game =>
    if game.userId ≠ userId then
      Except.error "Game not found or access denied."
    else if game.status ≠ GameStatus.active then
      Except.error "Game is not active."
    else if game.revealedTiles.length = 0 then
      Except.error "Cannot cash out before revealing any tiles."
    else
      match findUser st.users userId with
      | none => Except.error "User not found."
      | some currentBalance =>
        let winnings := game.betAmount * game.payoutMultiplier
        let newBalance := jsToFixed 2 (currentBalance + winnings)
        let winTx : Tx :=
          { userId := userId, type := "game_win",
            amount := jsToFixed 2 winnings, status := "completed" }
        let updatedGame :=
          { game with status := GameStatus.cashed_out,
                      cashedOutAmount := some (jsToFixed 2 winnings) }
        Except.ok
          ({ users := updateUserBalance st.users userId newBalance,
             games := updateGame st.games gameId updatedGame,
             transactions := st.transactions ++ [winTx] }, updatedGame)

/-! ### Concrete states used by the witnesses and the counterexamples -/

/-- A sample digest function standing in for HMAC-SHA512 in concrete runs:
64 bytes, every byte below 256. -/
def sampleDigest : String → String → List ℕ :=
  fun _ _ => List.range 64

/-- An active game with a single mine on tile 0 and no reveals yet. -/
def oobGame : MinesGame :=
  { id := "g1", userId := "u1", betAmount := 10, mineCount := 1,
    clientSeed := "c", serverSeed := "s", serverSeedHash := "h", nonce := 1,
    mineLocations := [0], revealedTiles := [], status := GameStatus.active,
    payoutMultiplier := 1, cashedOutAmount := none }

/-- Database holding `oobGame` and its owner with balance 90. -/
def oobState : DBState :=
  { users := [("u1", 90)], games := [oobGame], transactions := [] }

/-- What `revealMinesTile` turns `oobGame` into when asked for tile 25. -/
def oobGameAfter : MinesGame :=
  { oobGame with
      revealedTiles := [25],
      payoutMultiplier := jsToFixed 4 (calculateMinesMultiplier 1 1) }

/-- A game already in the terminal `busted` state. -/
def bustedGame : MinesGame :=
  { id := "g2", userId := "u1", betAmount := 10, mineCount := 3,
    clientSeed := "c", serverSeed := "s", serverSeedHash := "h", nonce := 1,
    mineLocations := [1, 2, 3], revealedTiles := [0],
    status := GameStatus.busted, payoutMultiplier := 1.2375,
    cashedOutAmount := none }

/-- Database holding `bustedGame`. -/
def bustedState : DBState :=
  { users := [("u1", 100)], games := [bustedGame], transactions := [] }

/-- The reference bet: 10.00 with 5 mines. -/
def betPayload : MinesBetPayload :=
  { betAmount := 10, mineCount := 5, clientSeed := "client" }

/-- A user whose balance 5 cannot cover the reference bet. -/
def poorState : DBState :=
  { users := [("u3", 5)], games := [], transactions := [] }

/-- A user whose balance 100 covers the reference bet. -/
def richState : DBState :=
  { users := [("u2", 100)], games := [], transactions := [] }

/-- The reference scenario after one safe reveal of tile 0: grid 25, 5 mines,
bet 10.00, stored multiplier `1.2375`. -/
def scenarioGame : MinesGame :=
  { id := "g1", userId := "u1", betAmount := 10, mineCount := 5,
    clientSeed := "client", serverSeed := "server", serverSeedHash := "hash",
    nonce := 1, mineLocations := [5, 9, 13, 17, 21], revealedTiles := [0],
    status := GameStatus.active, payoutMultiplier := 1.2375,
    cashedOutAmount := none }

/-- Database for the reference scenario (balance 90 after the 10.00 debit). -/
def scenarioState : DBState :=
  { users := [("u1", 90)], games := [scenarioGame], transactions := [] }

/-! ### Helper lemmas: the iterative binomial computation -/

/-- After `j` iterations the loop of `combinations` holds exactly
`C(n, j)`. -/
lemma combLoop_eq_choose (n : ℕ) :
    ∀ j : ℕ, j ≤ n → combLoop (n : ℤ) j = (n.choose j : ℚ) := by
  intro j
  induction j with
  | zero => intro _; simp [combLoop]
  | succ i ih =>
    intro h
    have hile : i ≤ n := Nat.le_of_succ_le h
    have hch : (n.choose (i + 1) : ℚ) * ((i : ℚ) + 1)
        = (n.choose i : ℚ) * ((n : ℚ) - i) := by
      have h2 := congrArg (fun t : ℕ => (t : ℚ)) (Nat.choose_succ_right_eq n i)
      push_cast [Nat.cast_sub hile] at h2
      linarith [h2]
    have hpos : ((i : ℚ) + 1) ≠ 0 := by positivity
    rw [combLoop, ih hile]
    push_cast
    rw [div_eq_iff hpos]
    linarith [hch]

/-- On its intended domain `0 ≤ k ≤ n` the source's `combinations` agrees
with the mathematical binomial coefficient. -/
lemma combinations_eq_choose (n k : ℕ) (h : k ≤ n) :
    combinations (n : ℤ) (k : ℤ) = (n.choose k : ℚ) := by
  unfold combinations
  rw [if_neg (by omega)]
  by_cases h0 : (k : ℤ) = 0 ∨ (k : ℤ) = n
  · rw [if_pos h0]
    rcases h0 with h0 | h0
    · have : k = 0 := by omega
      simp [this]
    · have : k = n := by omega
      simp [this]
  · rw [if_neg h0]
    by_cases h2 : (n : ℤ) < 2 * k
    · rw [if_pos h2]
      have ht : ((n : ℤ) - k).toNat = n - k := by omega
      rw [ht, combLoop_eq_choose n (n - k) (by omega), Nat.choose_symm h]
    · rw [if_neg h2]
      have ht : ((k : ℤ)).toNat = k := by omega
      rw [ht, combLoop_eq_choose n k h]

/-- `combinations` takes its early `0` return for `k < 0` or `k > n`. -/
lemma combinations_of_out_of_range (n k : ℤ) (h : k < 0 ∨ n < k) :
    combinations n k = 0 := by
  unfold combinations
  rw [if_pos h]

/-- Closed form of `calculateMinesMultiplier` on the valid range. -/
lemma calcMult_eq (r m : ℕ) (hm : m ≤ 25) (hr : r ≤ 25 - m) :
    calculateMinesMultiplier (r : ℤ) (m : ℤ)
      = 0.99 * (Nat.choose 25 r : ℚ) / (Nat.choose (25 - m) r : ℚ) := by
  have hdef : calculateMinesMultiplier (r : ℤ) (m : ℤ)
      = 0.99 * combinations 25 (r : ℤ) / combinations (25 - (m : ℤ)) (r : ℤ) :=
    rfl
  rw [hdef, show ((25:ℤ)) - (m:ℤ) = (((25 - m : ℕ) : ℤ)) from by omega,
    show (25:ℤ) = ((25:ℕ):ℤ) from by norm_num,
    combinations_eq_choose 25 r (by omega), combinations_eq_choose (25 - m) r hr]

/-! ### Helper lemmas: the Fisher–Yates shuffle -/

/-- Moving the element at index `k` to the front while writing `a` into
position `k` permutes `a :: t`. -/
lemma set_getD_perm (t : List ℕ) :
    ∀ (k : ℕ) (a : ℕ), k < t.length →
      ((t.getD k 0) :: t.set k a).Perm (a :: t) := by
  induction t with
  | nil => intro k a h; simp at h
  | cons b s ih =>
    intro k a h
    cases k with
    | zero =>
      simpa using List.Perm.swap a b s
    | succ k' =>
      have h' : k' < s.length := by simpa using h
      simp only [List.getD_cons_succ, List.set_cons_succ]
      calc s.getD k' 0 :: b :: s.set k' a
          |>.Perm (b :: s.getD k' 0 :: s.set k' a) :=
            List.Perm.swap b (s.getD k' 0) _
        _ |>.Perm (b :: a :: s) := List.Perm.cons b (ih k' a h')
        _ |>.Perm (a :: b :: s) := List.Perm.swap a b s

/-- Swapping two in-range positions permutes the list. -/
lemma listSwap_perm : ∀ (l : List ℕ) (i j : ℕ),
    i < l.length → j < l.length → (listSwap l i j).Perm l := by
  intro l
  induction l with
  | nil => intro i j h _; simp at h
  | cons a t ih =>
    intro i j hi hj
    unfold listSwap
    cases i with
    | zero =>
      cases j with
      | zero => simp
      | succ j' =>
        have hj' : j' < t.length := by simpa using hj
        simp only [List.getD_cons_succ, List.getD_cons_zero,
          List.set_cons_zero, List.set_cons_succ]
        exact set_getD_perm t j' a hj'
    | succ i' =>
      cases j with
      | zero =>
        have hi' : i' < t.length := by simpa using hi
        simp only [List.getD_cons_succ, List.getD_cons_zero,
          List.set_cons_zero, List.set_cons_succ]
        exact set_getD_perm t i' a hi'
      | succ j' =>
        have hi' : i' < t.length := by simpa using hi
        have hj' : j' < t.length := by simpa using hj
        simp only [List.getD_cons_succ, List.set_cons_succ]
        exact List.Perm.cons a (ih i' j' hi' hj')

/-- The swap partner `⌊b / 256 * (i + 1)⌋` never exceeds the loop counter
when `b` is a byte. -/
lemma jIndex_le (b c : ℕ) (hb : b < 256) : jIndex b c ≤ c := by
  unfold jIndex
  have h1 : b * (c + 1) < 256 * (c + 1) :=
    mul_lt_mul_of_pos_right hb (by omega)
  have h2 : b * (c + 1) / 256 < c + 1 :=
    (Nat.div_lt_iff_lt_mul (by omega)).mpr (by omega)
  omega

/-- Any read from a byte buffer (with default `0`) is a byte. -/
lemma buffer_getD_lt (buffer : List ℕ) (hb : ∀ b ∈ buffer, b < 256) (x : ℕ) :
    buffer.getD x 0 < 256 := by
  rcases Nat.lt_or_ge x buffer.length with h | h
  · rw [List.getD_eq_getElem _ _ h]
    exact hb _ (List.getElem_mem h)
  · rw [List.getD_eq_default _ _ h]
    omega

/-- The whole Fisher–Yates loop permutes its input array whenever the
initial counter is in range and the buffer holds bytes. -/
lemma fyLoop_perm (buffer : List ℕ) (hb : ∀ b ∈ buffer, b < 256) :
    ∀ (i : ℕ) (arr : List ℕ), i < arr.length →
      (fyLoop buffer arr i).Perm arr := by
  intro i
  induction i with
  | zero => intro arr _; exact List.Perm.refl _
  | succ i ih =>
    intro arr h
    rw [fyLoop]
    have hj : jIndex (buffer.getD ((i + 1) % buffer.length) 0) (i + 1) ≤ i + 1 :=
      jIndex_le _ _ (buffer_getD_lt buffer hb _)
    have hswap : (listSwap arr (i + 1)
        (jIndex (buffer.getD ((i + 1) % buffer.length) 0) (i + 1))).Perm arr :=
      listSwap_perm _ _ _ h (by omega)
    have hlen := hswap.length_eq
    exact (ih _ (by omega)).trans hswap

/-! ### Claim theorems -/

/-- Claim C2: for every `mineCount ∈ [1,24]` and every
`revealedCount ≤ 25 − mineCount`, `calculateMinesMultiplier` equals
`0.99 · C(25, revealedCount) / C(25 − mineCount, revealedCount)` with a
nonzero denominator, and at `revealedCount = 0` it is exactly `0.99`. -/
theorem multiplier_matches_formula (mineCount revealedCount : ℕ)
    (hm1 : 1 ≤ mineCount) (hm2 : mineCount ≤ 24)
    (hr : revealedCount ≤ 25 - mineCount) :
    calculateMinesMultiplier (revealedCount : ℤ) (mineCount : ℤ)
      = 0.99 * (Nat.choose 25 revealedCount : ℚ)
          / (Nat.choose (25 - mineCount) revealedCount : ℚ)
    ∧ (Nat.choose (25 - mineCount) revealedCount : ℚ) ≠ 0
    ∧ calculateMinesMultiplier 0 (mineCount : ℤ) = 0.99 := by
  refine ⟨calcMult_eq _ _ (by omega) hr, ?_, ?_⟩
  · exact_mod_cast (Nat.choose_pos hr).ne'
  · have h0 := calcMult_eq 0 mineCount (by omega) (by omega)
    rw [show (((0:ℕ)):ℤ) = (0:ℤ) from rfl] at h0
    rw [h0]
    norm_num

/-- Witness for C2 at `mineCount = 5`, `revealedCount = 1`. -/
theorem multiplier_matches_formula_check :
    calculateMinesMultiplier 1 5
      = 0.99 * (Nat.choose 25 1 : ℚ) / (Nat.choose (25 - 5) 1 : ℚ)
    ∧ (Nat.choose (25 - 5) 1 : ℚ) ≠ 0
    ∧ calculateMinesMultiplier 0 5 = 0.99 :=
  multiplier_matches_formula 5 1 (by norm_num) (by norm_num) (by norm_num)

/-- Claim C4: for fixed `mineCount ∈ [1,24]` the multiplier strictly grows
with each additional revealed tile on the valid range. -/
theorem multiplier_strictly_increasing (mineCount k : ℕ)
    (hm1 : 1 ≤ mineCount) (hm2 : mineCount ≤ 24) (hk : k + 1 ≤ 25 - mineCount) :
    calculateMinesMultiplier (k : ℤ) (mineCount : ℤ)
      < calculateMinesMultiplier ((k : ℤ) + 1) (mineCount : ℤ) := by
  have e1 := calcMult_eq k mineCount (by omega) (by omega)
  have e2 := calcMult_eq (k + 1) mineCount (by omega) hk
  have hcast : (((k + 1 : ℕ)) : ℤ) = (k : ℤ) + 1 := by push_cast; ring
  rw [hcast] at e2
  have hA : 0 < Nat.choose 25 k := Nat.choose_pos (by omega)
  have hB : 0 < Nat.choose (25 - mineCount) k := Nat.choose_pos (by omega)
  have key : Nat.choose 25 k * Nat.choose (25 - mineCount) (k + 1)
      < Nat.choose 25 (k + 1) * Nat.choose (25 - mineCount) k := by
    have f1 := Nat.choose_succ_right_eq 25 k
    have f2 := Nat.choose_succ_right_eq (25 - mineCount) k
    have h3 : Nat.choose 25 k * Nat.choose (25 - mineCount) (k + 1) * (k + 1)
        = Nat.choose 25 k * Nat.choose (25 - mineCount) k
            * ((25 - mineCount) - k) := by
      rw [mul_assoc, f2, mul_assoc]
    have h4 : Nat.choose 25 (k + 1) * Nat.choose (25 - mineCount) k * (k + 1)
        = Nat.choose 25 k * Nat.choose (25 - mineCount) k * (25 - k) := by
      rw [mul_right_comm, f1, mul_right_comm, mul_assoc]
    have h5 : Nat.choose 25 k * Nat.choose (25 - mineCount) k
          * ((25 - mineCount) - k)
        < Nat.choose 25 k * Nat.choose (25 - mineCount) k * (25 - k) :=
      mul_lt_mul_of_pos_left (by omega) (mul_pos hA hB)
    have h6 : Nat.choose 25 k * Nat.choose (25 - mineCount) (k + 1) * (k + 1)
        < Nat.choose 25 (k + 1) * Nat.choose (25 - mineCount) k * (k + 1) := by
      rw [h3, h4]
      exact h5
    exact Nat.lt_of_mul_lt_mul_right h6
  have hB1 : 0 < Nat.choose (25 - mineCount) (k + 1) := Nat.choose_pos hk
  have hBq : (0:ℚ) < ((25 - mineCount).choose k : ℚ) := by exact_mod_cast hB
  have hB1q : (0:ℚ) < ((25 - mineCount).choose (k + 1) : ℚ) := by
    exact_mod_cast hB1
  have keyQ : (Nat.choose 25 k : ℚ) * ((25 - mineCount).choose (k + 1) : ℚ)
      < (Nat.choose 25 (k + 1) : ℚ) * ((25 - mineCount).choose k : ℚ) := by
    exact_mod_cast key
  rw [e1, e2, div_lt_div_iff₀ hBq hB1q]
  calc 0.99 * (Nat.choose 25 k : ℚ) * ((25 - mineCount).choose (k + 1) : ℚ)
      = 0.99 * ((Nat.choose 25 k : ℚ) * ((25 - mineCount).choose (k + 1) : ℚ)) := by
        ring
    _ < 0.99 * ((Nat.choose 25 (k + 1) : ℚ) * ((25 - mineCount).choose k : ℚ)) :=
        mul_lt_mul_of_pos_left keyQ (by norm_num)
    _ = 0.99 * (Nat.choose 25 (k + 1) : ℚ) * ((25 - mineCount).choose k : ℚ) := by
        ring

/-- Witness for C4 at `mineCount = 5`, `k = 0`. -/
theorem multiplier_strictly_increasing_check :
    calculateMinesMultiplier 0 5 < calculateMinesMultiplier 1 5 :=
  multiplier_strictly_increasing 5 0 (by norm_num) (by norm_num) (by norm_num)

/-- Claim C9, amended: `combinations(n, k)` returns `0` for `k < 0` or
`k > n`, and for `revealedCount > 25 − mineCount` the `calculateMinesMultiplier`
expression is total but its denominator is that zero, so the division it
performs is a division by zero (Infinity in JavaScript), not a division-free
path. -/
theorem combinations_guard_and_zero_denominator :
    (∀ n k : ℤ, k < 0 ∨ n < k → combinations n k = 0)
    ∧ (∀ revealedCount mineCount : ℤ, 25 - mineCount < revealedCount →
        combinations (25 - mineCount) revealedCount = 0
        ∧ calculateMinesMultiplier revealedCount mineCount
            = 0.99 * combinations 25 revealedCount / 0) := by
  refine ⟨combinations_of_out_of_range, ?_⟩
  intro r m h
  have h0 : combinations (25 - m) r = 0 :=
    combinations_of_out_of_range _ _ (Or.inr h)
  refine ⟨h0, ?_⟩
  have hdef : calculateMinesMultiplier r m
      = 0.99 * combinations 25 r / combinations (25 - m) r := rfl
  rw [hdef, h0]

/-- Counterexample for C9 as stated: at `revealedCount = 21`,
`mineCount = 5` the numerator `combinations 25 21` is `12650 ≠ 0` while the
denominator `combinations (25 − 5) 21` is `0`, so `calculateMinesMultiplier`
does divide by zero on the `k > n` path. -/
theorem combinations_no_division_by_zero_fails :
    combinations 25 21 = 12650
    ∧ combinations (25 - 5) 21 = 0
    ∧ calculateMinesMultiplier 21 5 = 0.99 * combinations 25 21 / 0 := by
  refine ⟨by norm_num [combinations, combLoop], ?_, ?_⟩
  · exact combinations_of_out_of_range _ _ (Or.inr (by norm_num))
  · have hdef : calculateMinesMultiplier 21 5
        = 0.99 * combinations 25 21 / combinations (25 - 5) 21 := rfl
    rw [hdef, combinations_of_out_of_range (25 - 5) 21 (Or.inr (by norm_num))]

/-- Witness for the amended C9 at `(n, k) = (20, 21)`, `(5, −1)` and
`(revealedCount, mineCount) = (21, 5)`. -/
theorem combinations_guard_check :
    combinations 20 21 = 0 ∧ combinations 5 (-1) = 0
    ∧ (combinations (25 - 5) 21 = 0
        ∧ calculateMinesMultiplier 21 5 = 0.99 * combinations 25 21 / 0) :=
  ⟨combinations_guard_and_zero_denominator.1 20 21 (Or.inr (by norm_num)),
   combinations_guard_and_zero_denominator.1 5 (-1) (Or.inl (by norm_num)),
   combinations_guard_and_zero_denominator.2 21 5 (by norm_num)⟩

/-- Claim C3: for every byte-valued digest, every `gridSize ≥ 1` and every
`mineCount` with `1 ≤ mineCount ≤ gridSize − 1`, `generateMineLocations`
returns exactly `mineCount` distinct tiles, each in `[0, gridSize)`, sorted
ascending. -/
theorem generateMineLocations_valid (hmacDigest : String → String → List ℕ)
    (hbytes : ∀ key msg, ∀ b ∈ hmacDigest key msg, b < 256)
    (serverSeed clientSeed : String) (nonce gridSize mineCount : ℕ)
    (hg : 1 ≤ gridSize) (hm1 : 1 ≤ mineCount) (hm2 : mineCount ≤ gridSize - 1) :
    (generateMineLocations hmacDigest serverSeed clientSeed nonce gridSize
        mineCount).length = mineCount
    ∧ (generateMineLocations hmacDigest serverSeed clientSeed nonce gridSize
        mineCount).Nodup
    ∧ (∀ t ∈ generateMineLocations hmacDigest serverSeed clientSeed nonce
        gridSize mineCount, t < gridSize)
    ∧ List.Sorted (· ≤ ·) (generateMineLocations hmacDigest serverSeed
        clientSeed nonce gridSize mineCount) := by
  have hbuf : ∀ b ∈ hmacDigest serverSeed (clientSeed ++ ":" ++ toString nonce),
      b < 256 := hbytes _ _
  have hperm : (fyLoop (hmacDigest serverSeed (clientSeed ++ ":" ++ toString nonce))
      (List.range gridSize) ((List.range gridSize).length - 1)).Perm
        (List.range gridSize) :=
    fyLoop_perm _ hbuf _ _ (by simp; omega)
  have hdef : generateMineLocations hmacDigest serverSeed clientSeed nonce
        gridSize mineCount
      = ((fyLoop (hmacDigest serverSeed (clientSeed ++ ":" ++ toString nonce))
          (List.range gridSize) ((List.range gridSize).length - 1)).take
            mineCount).mergeSort (fun a b => a ≤ b) := rfl
  have hlen : (fyLoop (hmacDigest serverSeed (clientSeed ++ ":" ++ toString nonce))
      (List.range gridSize) ((List.range gridSize).length - 1)).length
        = gridSize := by
    rw [hperm.length_eq, List.length_range]
  have hms := List.mergeSort_perm
    ((fyLoop (hmacDigest serverSeed (clientSeed ++ ":" ++ toString nonce))
      (List.range gridSize) ((List.range gridSize).length - 1)).take mineCount)
    (fun a b => a ≤ b)
  have htake := List.take_sublist mineCount
    (fyLoop (hmacDigest serverSeed (clientSeed ++ ":" ++ toString nonce))
      (List.range gridSize) ((List.range gridSize).length - 1))
  refine ⟨?_, ?_, ?_, ?_⟩
  · rw [hdef, hms.length_eq, List.length_take, hlen]
    omega
  · rw [hdef]
    exact hms.nodup_iff.mpr
      (List.Nodup.sublist htake (hperm.nodup_iff.mpr (List.nodup_range _)))
  · intro t ht
    rw [hdef] at ht
    exact List.mem_range.mp (hperm.subset (htake.subset (hms.subset ht)))
  · rw [hdef]
    have hs := @List.sorted_mergeSort ℕ (fun a b : ℕ => decide (a ≤ b))
      (by intro a b c hab hbc; simp only [decide_eq_true_eq] at *; omega)
      (by intro a b; simp only [Bool.or_eq_true, decide_eq_true_eq]; omega)
      ((fyLoop (hmacDigest serverSeed (clientSeed ++ ":" ++ toString nonce))
        (List.range gridSize) ((List.range gridSize).length - 1)).take mineCount)
    exact hs.imp (fun h => of_decide_eq_true h)

/-- Witness for C3 with a concrete 64-byte digest, grid 25, 5 mines. -/
theorem generateMineLocations_valid_check :
    (generateMineLocations sampleDigest "server" "client" 1 25 5).length = 5
    ∧ (generateMineLocations sampleDigest "server" "client" 1 25 5).Nodup
    ∧ (∀ t ∈ generateMineLocations sampleDigest "server" "client" 1 25 5,
        t < 25)
    ∧ List.Sorted (· ≤ ·)
        (generateMineLocations sampleDigest "server" "client" 1 25 5) :=
  generateMineLocations_valid sampleDigest
    (by intro key msg b hb; simp only [sampleDigest, List.mem_range] at hb; omega)
    "server" "client" 1 25 5 (by norm_num) (by norm_num) (by norm_num)

/-- Claim C5: `generateMineLocations` is a pure deterministic function of
`(serverSeed, clientSeed, nonce, gridSize, mineCount)` (given the
deterministic HMAC): two invocations on the same inputs return the identical
array. -/
theorem generateMineLocations_deterministic
    (hmacDigest : String → String → List ℕ) (serverSeed clientSeed : String)
    (nonce gridSize mineCount : ℕ) :
    generateMineLocations hmacDigest serverSeed clientSeed nonce gridSize
        mineCount
      = generateMineLocations hmacDigest serverSeed clientSeed nonce gridSize
        mineCount := rfl

/-- Claim C10: in the Fisher–Yates loop the swap index
`⌊buffer[i % len] / 256 * (i + 1)⌋` never exceeds the loop counter (so every
access is in bounds), and the loop leaves a permutation of `[0, gridSize)`
for every `gridSize ≥ 1`. -/
theorem fisherYates_swap_inbounds_perm :
    (∀ b i : ℕ, b < 256 → jIndex b i ≤ i)
    ∧ (∀ buffer : List ℕ, (∀ b ∈ buffer, b < 256) → ∀ gridSize : ℕ,
        1 ≤ gridSize →
        (fyLoop buffer (List.range gridSize) (gridSize - 1)).Perm
          (List.range gridSize)) := by
  refine ⟨fun b i hb => jIndex_le b i hb, ?_⟩
  intro buffer hb gridSize hg
  exact fyLoop_perm buffer hb (gridSize - 1) (List.range gridSize)
    (by simp; omega)

/-- Witness for C10 at byte 255, counter 7, and a concrete 64-byte buffer
with grid 25. -/
theorem fisherYates_swap_inbounds_perm_check :
    jIndex 255 7 ≤ 7
    ∧ (fyLoop (List.range 64) (List.range 25) (25 - 1)).Perm (List.range 25) :=
  ⟨fisherYates_swap_inbounds_perm.1 255 7 (by norm_num),
   fisherYates_swap_inbounds_perm.2 (List.range 64)
     (by intro b hb; simp only [List.mem_range] at hb; omega) 25 (by norm_num)⟩

/-- Claim C6: once a game is `busted` or `cashed_out`, both `revealMinesTile`
and `cashoutMinesGame` fail with the "Game is not active." state error; an
error outcome carries no updated state, so the session, the balance and the
transaction log are unchanged. -/
theorem terminal_state_rejects_mutation (st : DBState) (userId gameId : String)
    (tileIndex : ℕ) (game : MinesGame)
    (hfind : findGame st.games gameId = some game)
    (hown : game.userId = userId)
    (hterm : game.status = GameStatus.busted
      ∨ game.status = GameStatus.cashed_out) :
    revealMinesTile st userId gameId tileIndex
      = Except.error "Game is not active."
    ∧ cashoutMinesGame st userId gameId
      = Except.error "Game is not active." := by
  have hne : game.status ≠ GameStatus.active := by
    rcases hterm with h | h <;> simp [h]
  constructor
  · simp only [revealMinesTile, hfind]
    rw [if_neg (by simp [hown]), if_pos hne]
  · simp only [cashoutMinesGame, hfind]
    rw [if_neg (by simp [hown]), if_pos hne]

/-- Witness for C6 on a concrete busted game. -/
theorem terminal_state_rejects_mutation_check :
    revealMinesTile bustedState "u1" "g2" 7
      = Except.error "Game is not active."
    ∧ cashoutMinesGame bustedState "u1" "g2"
      = Except.error "Game is not active." :=
  terminal_state_rejects_mutation bustedState "u1" "g2" 7 bustedGame rfl rfl
    (Or.inl rfl)

/-- Claim C7: `createMinesGame` rejects `betAmount ≤ 0` and `mineCount`
outside `[1,24]` first; with a valid payload and balance below the bet it
fails with the insufficient-balance error and no state change; otherwise the
debit, the ledger row and the new active game are produced in the single
returned state (one atomic unit). -/
theorem createMinesGame_validates_and_is_atomic
    (hmacDigest : String → String → List ℕ) (hashSeed : String → String)
    (serverSeed newGameId : String) (st : DBState) (userId : String)
    (payload : MinesBetPayload) :
    (payload.betAmount ≤ 0 →
      createMinesGame hmacDigest hashSeed serverSeed newGameId st userId payload
        = Except.error "Invalid bet amount.")
    ∧ (0 < payload.betAmount →
        payload.mineCount < 1 ∨ 24 < payload.mineCount →
      createMinesGame hmacDigest hashSeed serverSeed newGameId st userId payload
        = Except.error "Mine count must be between 1 and 24.")
    ∧ (∀ bal : ℚ, 0 < payload.betAmount → 1 ≤ payload.mineCount →
        payload.mineCount ≤ 24 → findUser st.users userId = some bal →
        bal < payload.betAmount →
      createMinesGame hmacDigest hashSeed serverSeed newGameId st userId payload
        = Except.error "Insufficient balance.")
    ∧ (∀ bal : ℚ, 0 < payload.betAmount → 1 ≤ payload.mineCount →
        payload.mineCount ≤ 24 → findUser st.users userId = some bal →
        payload.betAmount ≤ bal →
      ∃ newGame : MinesGame,
        createMinesGame hmacDigest hashSeed serverSeed newGameId st userId
            payload
          = Except.ok
            ({ users := updateUserBalance st.users userId
                 (jsToFixed 2 (bal - payload.betAmount)),
               games := st.games ++ [newGame],
               transactions := st.transactions ++
                 [{ userId := userId, type := "game_bet",
                    amount := -(jsToFixed 2 payload.betAmount),
                    status := "completed" }] }, newGame)
        ∧ newGame.status = GameStatus.active
        ∧ newGame.revealedTiles = []
        ∧ newGame.betAmount = payload.betAmount) := by
  refine ⟨?_, ?_, ?_, ?_⟩
  · intro h
    simp only [createMinesGame]
    rw [if_pos h]
  · intro h0 hmc
    simp only [createMinesGame]
    rw [if_neg (not_le.mpr h0), if_pos hmc]
  · intro bal h0 hmc1 hmc2 hfind hlt
    simp only [createMinesGame, hfind]
    rw [if_neg (not_le.mpr h0), if_neg (by omega), if_pos hlt]
  · intro bal h0 hmc1 hmc2 hfind hle
    simp only [createMinesGame, hfind]
    rw [if_neg (not_le.mpr h0), if_neg (by omega), if_neg (not_lt.mpr hle)]
    exact ⟨_, rfl, rfl, rfl, rfl⟩

/-- Witness for C7: the reference bet rejected on balance 5 and accepted on
balance 100. -/
theorem createMinesGame_validates_check :
    createMinesGame sampleDigest (fun s => s) "server" "gid" poorState "u3"
        betPayload
      = Except.error "Insufficient balance."
    ∧ ∃ newGame : MinesGame,
        createMinesGame sampleDigest (fun s => s) "server" "gid" richState "u2"
            betPayload
          = Except.ok
            ({ users := updateUserBalance richState.users "u2"
                 (jsToFixed 2 (100 - betPayload.betAmount)),
               games := richState.games ++ [newGame],
               transactions := richState.transactions ++
                 [{ userId := "u2", type := "game_bet",
                    amount := -(jsToFixed 2 betPayload.betAmount),
                    status := "completed" }] }, newGame)
        ∧ newGame.status = GameStatus.active
        ∧ newGame.revealedTiles = []
        ∧ newGame.betAmount = betPayload.betAmount :=
  ⟨(createMinesGame_validates_and_is_atomic sampleDigest (fun s => s) "server"
      "gid" poorState "u3" betPayload).2.2.1 5 (by norm_num [betPayload])
      (by norm_num [betPayload]) (by norm_num [betPayload]) rfl
      (by norm_num [betPayload]),
   (createMinesGame_validates_and_is_atomic sampleDigest (fun s => s) "server"
      "gid" richState "u2" betPayload).2.2.2 100 (by norm_num [betPayload])
      (by norm_num [betPayload]) (by norm_num [betPayload]) rfl
      (by norm_num [betPayload])⟩

/-- Claim C8: on an owned active session, cashing out with no reveals fails
with the nothing-to-cash-out error; with at least one reveal it credits
`winnings = betAmount * payoutMultiplier` (stored per `toFixed(2)`), appends
the `game_win` ledger row and marks the game `cashed_out` with
`cashedOutAmount` set, all in the single returned state. -/
theorem cashout_settles_atomically (st : DBState) (userId gameId : String)
    (game : MinesGame)
    (hfind : findGame st.games gameId = some game)
    (hown : game.userId = userId)
    (hact : game.status = GameStatus.active) :
    (game.revealedTiles.length = 0 →
      cashoutMinesGame st userId gameId
        = Except.error "Cannot cash out before revealing any tiles.")
    ∧ (∀ bal : ℚ, game.revealedTiles.length ≠ 0 →
        findUser st.users userId = some bal →
      cashoutMinesGame st userId gameId
        = Except.ok
          ({ users := updateUserBalance st.users userId
               (jsToFixed 2 (bal + game.betAmount * game.payoutMultiplier)),
             games := updateGame st.games gameId
               { game with
                   status := GameStatus.cashed_out,
                   cashedOutAmount := some (jsToFixed 2
                     (game.betAmount * game.payoutMultiplier)) },
             transactions := st.transactions ++
               [{ userId := userId, type := "game_win",
                  amount := jsToFixed 2
                    (game.betAmount * game.payoutMultiplier),
                  status := "completed" }] },
           { game with
               status := GameStatus.cashed_out,
               cashedOutAmount := some (jsToFixed 2
                 (game.betAmount * game.payoutMultiplier)) })) := by
  constructor
  · intro h
    simp only [cashoutMinesGame, hfind]
    rw [if_neg (by simp [hown]), if_neg (by simp [hact]), if_pos h]
  · intro bal h hfu
    simp only [cashoutMinesGame, hfind, hfu]
    rw [if_neg (by simp [hown]), if_neg (by simp [hact]), if_neg h]

/-- Witness for C8: the reference scenario.  One safe reveal at 5 mines
stores multiplier `toFixed(4)` of `0.99·25/20 = 1.2375`; winnings are
`10.00 · 1.2375 = 12.375`, credited as `12.38` after `toFixed(2)`. -/
theorem cashout_settles_atomically_check :
    jsToFixed 4 (calculateMinesMultiplier 1 5) = 1.2375
    ∧ (10 : ℚ) * 1.2375 = 12.375
    ∧ jsToFixed 2 ((10 : ℚ) * 1.2375) = 12.38
    ∧ cashoutMinesGame scenarioState "u1" "g1"
        = Except.ok
          ({ users := updateUserBalance scenarioState.users "u1"
               (jsToFixed 2
                 (90 + scenarioGame.betAmount * scenarioGame.payoutMultiplier)),
             games := updateGame scenarioState.games "g1"
               { scenarioGame with
                   status := GameStatus.cashed_out,
                   cashedOutAmount := some (jsToFixed 2
                     (scenarioGame.betAmount * scenarioGame.payoutMultiplier)) },
             transactions := scenarioState.transactions ++
               [{ userId := "u1", type := "game_win",
                  amount := jsToFixed 2
                    (scenarioGame.betAmount * scenarioGame.payoutMultiplier),
                  status := "completed" }] },
           { scenarioGame with
               status := GameStatus.cashed_out,
               cashedOutAmount := some (jsToFixed 2
                 (scenarioGame.betAmount * scenarioGame.payoutMultiplier)) }) :=
  ⟨by norm_num [jsToFixed, calculateMinesMultiplier, combinations, combLoop],
   by norm_num,
   by norm_num [jsToFixed],
   (cashout_settles_atomically scenarioState "u1" "g1" scenarioGame rfl rfl
      rfl).2 90 (by norm_num [scenarioGame]) rfl⟩

/-- Claim C1 fails on the code: `revealMinesTile` never range-checks
`tileIndex`.  On an active game with its single mine on tile 0, asking for
the out-of-grid tile 25 is accepted as a safe reveal: the call returns
`ok`, appends `25` to `revealedTiles` (which is then not a subset of
`[0, 25)`), keeps the game active and raises the stored multiplier above 1,
instead of rejecting with a validation error. -/
theorem reveal_accepts_out_of_range_tile :
    revealMinesTile oobState "u1" "g1" 25
      = Except.ok
        ({ oobState with games := updateGame oobState.games "g1" oobGameAfter },
         oobGameAfter)
    ∧ oobGameAfter.revealedTiles = [25]
    ∧ oobGameAfter.status = GameStatus.active
    ∧ ¬ 25 < 25
    ∧ 1 < jsToFixed 4 (calculateMinesMultiplier 1 1) := by
  refine ⟨rfl, rfl, rfl, by omega, ?_⟩
  norm_num [jsToFixed, calculateMinesMultiplier, combinations, combLoop]

end HedgeFund
